import Mathlib

/-!
Shallow embedding of the transcriber worker (src/transcriber/main.py).

The worker polls a relational store for pending transcription jobs,
runs each job through the Whisper engine, upserts the transcript row
keyed by audiobook id, and records job status transitions.  External
effects (filesystem, engine, store failures, clock, uuid generation)
are supplied by an `Env` record; the database is an explicit `DBState`
threaded through the operations, together with a log of the status
writes the worker issues (`statusLog`), which is the observation
instrument for the lifecycle claims.
-/

namespace Transcriber

/-- Job status values used by the worker (`pending`, `running`,
`completed`, `failed`). -/
inductive Status
  | pending
  | running
  | completed
  | failed
deriving DecidableEq, Repr

/-- One timed segment of a transcript, as produced by the engine:
start time, end time and text (spec section 6). -/
structure Segment where
  startTime : ℚ
  endTime : ℚ
  text : String
deriving DecidableEq, Repr

/-- A row of the `processing_jobs` table. -/
structure JobRow where
  id : String
  job_type : String
  audiobook_id : String
  status : Status
  created_at : Nat
  started_at : Option Nat
  completed_at : Option Nat
  error_message : Option String
deriving DecidableEq, Repr

/-- A row of the `audiobooks` table (the SourceMedia): file path and
optional language hint. -/
structure Audiobook where
  id : String
  file_path : String
  language : Option String
deriving DecidableEq, Repr

/-- A row of the `transcripts` table.  `segments` is the nullable
serialized segment column: `none` models SQL NULL, `some l` models the
JSON serialization of the list `l`. -/
structure TranscriptRow where
  id : String
  audiobook_id : String
  content : String
  segments : Option (List Segment)
  language : String
  confidence_score : ℚ
  processing_time_seconds : Nat
  created_at : Nat
deriving DecidableEq, Repr

/-- The relational store: jobs, audiobooks and transcripts tables. -/
structure DBState where
  jobs : List JobRow
  audiobooks : List Audiobook
  transcripts : List TranscriptRow
deriving DecidableEq, Repr

/-- One status write issued by `update_job_status`: the job id, the
status value written, and the error message written by a terminal
update (`none` for a `running` update, which does not touch
`error_message`). -/
structure StatusWrite where
  job_id : String
  status : Status
  error_message : Option String
deriving DecidableEq, Repr

/-- Worker-visible state: the database plus the chronological log of
status writes issued so far. -/
structure WorkerState where
  db : DBState
  statusLog : List StatusWrite
deriving DecidableEq, Repr

/-- Raw output of the Whisper engine's `transcribe` call: the text is
always present; the `segments` and `language` keys may be absent
(`result.get` with a default in the source). -/
structure WhisperOutput where
  text : String
  segments : Option (List Segment)
  language : Option String
deriving DecidableEq, Repr

/-- External effects of one worker run.  `fileExists` models
`os.path.exists`; `engine p` is the Whisper result or the raised
error's message for path `p`; `procTime p` is the measured wall-clock
duration of the engine call; `saveError a` is `some msg` when the
store raises during `save_transcript` for audiobook `a` (the commit
fails and the transaction is rolled back) and `none` when the write
commits; `fetchError` is `some msg` when the SELECT of
`get_pending_jobs` raises; `now` is the clock used for NOW() and
`datetime.now()`; `freshId a` is the `uuid.uuid4()` drawn when saving
a transcript for audiobook `a`. -/
structure Env where
  fileExists : String → Bool
  engine : String → Except String WhisperOutput
  procTime : String → Nat
  saveError : String → Option String
  fetchError : Option String
  now : Nat
  freshId : String → String

/-- A row returned by `get_pending_jobs`: `pj.*` joined with the
audiobook's `file_path` and `language`. -/
structure PendingJob where
  id : String
  job_type : String
  audiobook_id : String
  status : Status
  created_at : Nat
  started_at : Option Nat
  completed_at : Option Nat
  error_message : Option String
  file_path : String
  language : Option String
deriving DecidableEq, Repr

/-- The join `SELECT pj.*, ab.file_path, ab.language` for one job row
and its audiobook. -/
def joinRow (j : JobRow) (ab : Audiobook) : PendingJob :=
  { id := j.id
    job_type := j.job_type
    audiobook_id := j.audiobook_id
    status := j.status
    created_at := j.created_at
    started_at := j.started_at
    completed_at := j.completed_at
    error_message := j.error_message
    file_path := ab.file_path
    language := ab.language }

/-- Insert a pending row into a list sorted by ascending `created_at`
(auxiliary for the ORDER BY clause). -/
def insertByCreated (j : PendingJob) : List PendingJob → List PendingJob
  | [] => [j]
  | k :: ks =>
      if j.created_at ≤ k.created_at then j :: k :: ks
      else k :: insertByCreated j ks

/-- Sort rows by ascending `created_at` (the `ORDER BY pj.created_at
ASC` of the SELECT in `get_pending_jobs`). -/
def sortByCreated : List PendingJob → List PendingJob
  | [] => []
  | j :: js => insertByCreated j (sortByCreated js)

/-- `TranscriberWorker.get_pending_jobs`: rows of `processing_jobs`
with `job_type = 'transcribe'` and `status = 'pending'`, inner-joined
with `audiobooks`, ordered by `created_at` ascending, limited to 5.
The surrounding try/except returns the empty list when the store
raises.  The SELECT performs no writes, so the state is returned
unchanged.  `pendingRows` is the row set of the SELECT before ORDER BY
and LIMIT. -/
def pendingRows (st : WorkerState) : List PendingJob :=
  st.db.jobs.filterMap (fun j =>
    if j.job_type = "transcribe" ∧ j.status = Status.pending then
      match st.db.audiobooks.find? (fun ab => ab.id = j.audiobook_id) with
      | some ab => some (joinRow j ab)
      | none => none
    else none)

def get_pending_jobs (env : Env) (st : WorkerState) :
    List PendingJob × WorkerState :=
  match env.fetchError with
  | some _ => ([], st)
  | none => ((sortByCreated (pendingRows st)).take 5, st)

/-- `TranscriberWorker.update_job_status`: a `running` update sets
`status` and `started_at`; a `completed` or `failed` update sets
`status`, `completed_at` and `error_message`; any other status value
writes nothing.  Each issued write is appended to the status log. -/
def update_job_status (now : Nat) (st : WorkerState) (job_id : String)
    (status : Status) (error_message : Option String) : WorkerState :=
  if status = Status.running then
    { db := { st.db with jobs := st.db.jobs.map (fun j =>
        if j.id = job_id then
          { j with status := status, started_at := some now }
        else j) }
      statusLog := st.statusLog ++ [⟨job_id, status, none⟩] }
  else if status = Status.completed ∨ status = Status.failed then
    { db := { st.db with jobs := st.db.jobs.map (fun j =>
        if j.id = job_id then
          { j with status := status, completed_at := some now,
                   error_message := error_message }
        else j) }
      statusLog := st.statusLog ++ [⟨job_id, status, error_message⟩] }
  else st

/-- The dictionary built by `transcribe_audio` from the engine's
result. -/
structure TranscriptData where
  content : String
  segments : List Segment
  language : String
  processing_time_seconds : Nat
deriving DecidableEq, Repr

/-- `TranscriberWorker.transcribe_audio`: invoke the engine; on
success return the text, the segments (`[]` when the engine omits
them), the detected language (`"unknown"` when omitted) and the
measured processing time; an engine exception is re-raised. -/
def transcribe_audio (env : Env) (audio_path : String) :
    Except String TranscriptData :=
  match env.engine audio_path with
  | Except.error e => Except.error e
  | Except.ok r =>
      Except.ok
        { content := r.text
          segments := r.segments.getD []
          language := r.language.getD "unknown"
          processing_time_seconds := env.procTime audio_path }

/-- The serialized segments column written by `save_transcript`:
`json.dumps(segments) if segments else None` — an empty (falsy) list
is stored as NULL, a nonempty list as its serialization. -/
def segmentsColumn (segs : List Segment) : Option (List Segment) :=
  if segs = [] then none else some segs

/-- The row `save_transcript` stages for insertion: fresh uuid,
the audiobook id, the transcript fields, the fixed default confidence
score 0.95, and the current time as `created_at`. -/
def savedRow (env : Env) (audiobook_id : String) (td : TranscriptData) :
    TranscriptRow :=
  { id := env.freshId audiobook_id
    audiobook_id := audiobook_id
    content := td.content
    segments := segmentsColumn td.segments
    language := td.language
    confidence_score := (95 : ℚ) / 100
    processing_time_seconds := td.processing_time_seconds
    created_at := env.now }

/-- The `DO UPDATE SET` list of the upsert: overwrite `content`,
`segments`, `language`, `confidence_score` and
`processing_time_seconds` of the existing row `r` with the excluded
row's values; `id`, `audiobook_id` and `created_at` are not in the
SET list and keep the existing row's values. -/
def overwriteFields (row : TranscriptRow) (r : TranscriptRow) :
    TranscriptRow :=
  { r with content := row.content
           segments := row.segments
           language := row.language
           confidence_score := row.confidence_score
           processing_time_seconds := row.processing_time_seconds }

/-- `INSERT ... ON CONFLICT (audiobook_id) DO UPDATE`: when a row with
the same `audiobook_id` exists, overwrite its mutable fields with the
excluded row's values; otherwise append the new row. -/
def upsertTranscript (row : TranscriptRow) (ts : List TranscriptRow) :
    List TranscriptRow :=
  if ts.any (fun r => r.audiobook_id = row.audiobook_id) then
    ts.map (fun r =>
      if r.audiobook_id = row.audiobook_id then overwriteFields row r
      else r)
  else ts ++ [row]

/-- `TranscriberWorker.save_transcript`: upsert the staged row keyed
by `audiobook_id`; when the store raises, the transaction is rolled
back (the state is unchanged) and the exception propagates to the
caller. -/
def save_transcript (env : Env) (st : WorkerState) (audiobook_id : String)
    (td : TranscriptData) : Except String WorkerState :=
  match env.saveError audiobook_id with
  | some e => Except.error e
  | none =>
      let ts := upsertTranscript (savedRow env audiobook_id td) st.db.transcripts
      Except.ok { st with db := { st.db with transcripts := ts } }

/-- `TranscriberWorker.process_job`: mark the job running; check the
file exists (raising `FileNotFoundError` otherwise); transcribe; save
the transcript; mark the job completed.  Any exception from these
steps is caught and converted into a `failed` terminal update carrying
the exception's message. -/
def process_job (env : Env) (st : WorkerState) (job : PendingJob) :
    WorkerState :=
  let st1 := update_job_status env.now st job.id Status.running none
  if env.fileExists job.file_path = false then
    update_job_status env.now st1 job.id Status.failed
      (some ("Audio file not found: " ++ job.file_path))
  else
    match transcribe_audio env job.file_path with
    | Except.error e =>
        update_job_status env.now st1 job.id Status.failed (some e)
    | Except.ok td =>
        match save_transcript env st1 job.audiobook_id td with
        | Except.error e =>
            update_job_status env.now st1 job.id Status.failed (some e)
        | Except.ok st2 =>
            update_job_status env.now st2 job.id Status.completed none

/-- Process a fetched batch sequentially (the `for job in
pending_jobs` loop of `run`). -/
def runBatch (env : Env) (st : WorkerState) (jobs : List PendingJob) :
    WorkerState :=
  jobs.foldl (process_job env) st

/-- Sleep events the main loop can perform: the 10 s idle wait when no
jobs are pending, the 30 s backoff after an uncaught loop error, and
the 5 s delay between iterations. -/
inductive SleepEvent
  | idle (seconds : Nat)
  | errorBackoff (seconds : Nat)
  | inter (seconds : Nat)
deriving DecidableEq, Repr

/-- One iteration of the `while True` loop of `TranscriberWorker.run`:
fetch pending jobs; if the batch is nonempty process each job in
order, otherwise sleep 10 s; then the 5 s inter-iteration delay.
Returns the new state, the batch handed to `process_job`, and the
sleeps performed.  Every operation in the body catches its own
exceptions, so the `except` branch (the 30 s error backoff) is
unreachable from the modelled effects. -/
def runIteration (env : Env) (st : WorkerState) :
    WorkerState × List PendingJob × List SleepEvent :=
  let fetched := get_pending_jobs env st
  if fetched.1.isEmpty then
    (fetched.2, [], [SleepEvent.idle 10, SleepEvent.inter 5])
  else
    (runBatch env fetched.2 fetched.1, fetched.1, [SleepEvent.inter 5])

/-- The status writes recorded for one job id, in order. -/
def writesFor (st : WorkerState) (job_id : String) : List StatusWrite :=
  st.statusLog.filter (fun w => w.job_id = job_id)

/-- The status writes `process_job` appends to the log. -/
def newWrites (env : Env) (st : WorkerState) (job : PendingJob) :
    List StatusWrite :=
  (process_job env st job).statusLog.drop st.statusLog.length

/-- The terminal status write `process_job` issues for a job, as a
function of the environment: failure of the file check, the engine, or
the save produce `failed` with the exception's message; otherwise
`completed`. -/
def terminalWrite (env : Env) (job : PendingJob) : StatusWrite :=
  if env.fileExists job.file_path = false then
    ⟨job.id, Status.failed, some ("Audio file not found: " ++ job.file_path)⟩
  else
    match transcribe_audio env job.file_path with
    | Except.error e => ⟨job.id, Status.failed, some e⟩
    | Except.ok _ =>
        match env.saveError job.audiobook_id with
        | some e => ⟨job.id, Status.failed, some e⟩
        | none => ⟨job.id, Status.completed, none⟩

/-! ### Concrete fixtures

A two-job database mirroring the spec's test scenario: job A's audio
file is missing, job B's file exists and the engine returns
"hello world" with one segment.  Variant environments model a store
failure during the save, a store failure during the fetch, and an
engine result with an empty segment list. -/

def segHello : Segment :=
  { startTime := 0, endTime := 6 / 5, text := "hello world" }

def rowA : JobRow :=
  { id := "job-a", job_type := "transcribe", audiobook_id := "ab-a",
    status := Status.pending, created_at := 1, started_at := none,
    completed_at := none, error_message := none }

def rowB : JobRow :=
  { id := "job-b", job_type := "transcribe", audiobook_id := "ab-b",
    status := Status.pending, created_at := 2, started_at := none,
    completed_at := none, error_message := none }

def bookA : Audiobook :=
  { id := "ab-a", file_path := "a.mp3", language := none }

def bookB : Audiobook :=
  { id := "ab-b", file_path := "b.mp3", language := some "en" }

def st0 : WorkerState :=
  { db := { jobs := [rowA, rowB], audiobooks := [bookA, bookB],
            transcripts := [] }
    statusLog := [] }

def jobA : PendingJob := joinRow rowA bookA

def jobB : PendingJob := joinRow rowB bookB

def envW : Env :=
  { fileExists := fun p => p == "b.mp3"
    engine := fun p =>
      if p = "b.mp3" then
        Except.ok { text := "hello world", segments := some [segHello],
                    language := some "en" }
      else Except.error "engine failure"
    procTime := fun _ => 2
    saveError := fun _ => none
    fetchError := none
    now := 50
    freshId := fun _ => "uuid-1" }

def envFetchFail : Env :=
  { envW with fetchError := some "connection refused" }

def envEmptySegs : Env :=
  { envW with engine := fun p =>
      if p = "b.mp3" then
        Except.ok { text := "hi", segments := some [],
                    language := some "en" }
      else Except.error "engine failure" }

def td1W : TranscriptData :=
  { content := "draft", segments := [], language := "en",
    processing_time_seconds := 1 }

def td2W : TranscriptData :=
  { content := "final", segments := [segHello], language := "en",
    processing_time_seconds := 2 }

def st1W : WorkerState :=
  { st0 with db := { st0.db with
      transcripts := [savedRow envW "ab-b" td1W] } }

def st2W : WorkerState :=
  { st1W with db := { st1W.db with
      transcripts := [overwriteFields (savedRow envW "ab-b" td2W)
        (savedRow envW "ab-b" td1W)] } }

def jrB : JobRow :=
  { id := "job-b", job_type := "transcribe", audiobook_id := "ab-b",
    status := Status.completed, created_at := 2, started_at := some 50,
    completed_at := some 50, error_message := none }

def whisperB : WhisperOutput :=
  { text := "hello world", segments := some [segHello],
    language := some "en" }

/-! ### Status-write log lemmas -/

theorem statusLog_update (now : Nat) (st : WorkerState) (jid : String)
    (s : Status) (m : Option String) :
    (update_job_status now st jid s m).statusLog =
      st.statusLog ++
        (if s = Status.running then [⟨jid, s, none⟩]
         else if s = Status.completed ∨ s = Status.failed then [⟨jid, s, m⟩]
         else []) := by
  unfold update_job_status
  by_cases h1 : s = Status.running
  · simp [h1]
  · by_cases h2 : s = Status.completed ∨ s = Status.failed
    · simp [h1, h2]
    · simp [h1, h2]

theorem terminalWrite_job_id (env : Env) (job : PendingJob) :
    (terminalWrite env job).job_id = job.id := by
  unfold terminalWrite
  by_cases hf : env.fileExists job.file_path = false
  · simp [hf]
  · rw [if_neg hf]
    cases transcribe_audio env job.file_path with
    | error e => rfl
    | ok td => cases env.saveError job.audiobook_id <;> rfl

theorem terminalWrite_status (env : Env) (job : PendingJob) :
    (terminalWrite env job).status = Status.completed ∨
      (terminalWrite env job).status = Status.failed := by
  unfold terminalWrite
  by_cases hf : env.fileExists job.file_path = false
  · simp [hf]
  · rw [if_neg hf]
    cases transcribe_audio env job.file_path with
    | error e => exact Or.inr rfl
    | ok td =>
        cases env.saveError job.audiobook_id
        · exact Or.inl rfl
        · exact Or.inr rfl

theorem process_job_statusLog (env : Env) (st : WorkerState)
    (job : PendingJob) :
    (process_job env st job).statusLog =
      st.statusLog ++
        [⟨job.id, Status.running, none⟩, terminalWrite env job] := by
  unfold process_job terminalWrite
  by_cases hf : env.fileExists job.file_path = false
  · simp [hf, statusLog_update]
  · rw [if_neg hf, if_neg hf]
    cases hta : transcribe_audio env job.file_path with
    | error e => simp [statusLog_update]
    | ok td =>
        cases hse : env.saveError job.audiobook_id with
        | some e => simp [save_transcript, hse, statusLog_update]
        | none => simp [save_transcript, hse, statusLog_update]

theorem writesFor_process_job (env : Env) (st : WorkerState)
    (job : PendingJob) (q : String) :
    writesFor (process_job env st job) q =
      writesFor st q ++
        (if job.id = q then
          [⟨job.id, Status.running, none⟩, terminalWrite env job]
         else []) := by
  unfold writesFor
  rw [process_job_statusLog, List.filter_append]
  congr 1
  by_cases h : job.id = q
  · simp [List.filter, terminalWrite_job_id, h]
  · simp [List.filter, terminalWrite_job_id, h]

/-- Claim C1.  For every environment, prior state and job, the status
writes `process_job` issues for that job are exactly a `running` write
followed by one terminal write (`completed` or `failed`): `running` is
written before any terminal status, never skipped, and nothing is
written after the terminal status.  Together with the job being
created `pending` by the external scheduler, the observed status
sequence of any job is a prefix of
pending → running → completed or pending → running → failed. -/
theorem process_job_status_write_sequence (env : Env) (st : WorkerState)
    (job : PendingJob) :
    ∃ t m,
      writesFor (process_job env st job) job.id =
        writesFor st job.id ++
          [⟨job.id, Status.running, none⟩, ⟨job.id, t, m⟩] ∧
      (t = Status.completed ∨ t = Status.failed) := by
  refine ⟨(terminalWrite env job).status, (terminalWrite env job).error_message,
    ?_, terminalWrite_status env job⟩
  rw [writesFor_process_job, if_pos rfl]
  have hid : (⟨job.id, (terminalWrite env job).status,
      (terminalWrite env job).error_message⟩ : StatusWrite) =
      terminalWrite env job := by
    rw [← terminalWrite_job_id env job]
  rw [hid]

/-! ### Batch isolation -/

theorem writesFor_process_job_other (env : Env) (st : WorkerState)
    (a : PendingJob) (q : String) (h : a.id ≠ q) :
    writesFor (process_job env st a) q = writesFor st q := by
  rw [writesFor_process_job, if_neg h, List.append_nil]

theorem writesFor_runBatch_frame (env : Env) (jobs : List PendingJob)
    (st : WorkerState) (q : String) (h : ∀ a ∈ jobs, a.id ≠ q) :
    writesFor (runBatch env st jobs) q = writesFor st q := by
  induction jobs generalizing st with
  | nil => rfl
  | cons a l ih =>
      simp only [runBatch, List.foldl_cons]
      have h1 : a.id ≠ q := h a (List.mem_cons_self a l)
      have h2 : ∀ b ∈ l, b.id ≠ q :=
        fun b hb => h b (List.mem_cons_of_mem a hb)
      calc writesFor (List.foldl (process_job env) (process_job env st a) l) q
          = writesFor (process_job env st a) q := ih (process_job env st a) h2
        _ = writesFor st q := writesFor_process_job_other env st a q h1

/-- Claim C4.  A failure in any earlier job of a batch (missing file,
engine error, persistence error — all possible under the quantified
environment) never prevents a later job `b` from being processed: in
the sequential batch loop, `b` still receives its `running` write and
its terminal write (`completed` or `failed`, carrying the error's
message), whatever happened to the other jobs of the batch. -/
theorem batch_failure_isolation (env : Env) (st : WorkerState)
    (pre post : List PendingJob) (b : PendingJob)
    (h : ∀ a ∈ pre ++ post, a.id ≠ b.id) :
    ∃ t m,
      writesFor (runBatch env st (pre ++ b :: post)) b.id =
        writesFor st b.id ++
          [⟨b.id, Status.running, none⟩, ⟨b.id, t, m⟩] ∧
      (t = Status.completed ∨ t = Status.failed) := by
  have hpre : ∀ a ∈ pre, a.id ≠ b.id :=
    fun a ha => h a (List.mem_append_left post ha)
  have hpost : ∀ a ∈ post, a.id ≠ b.id :=
    fun a ha => h a (List.mem_append_right pre ha)
  refine ⟨(terminalWrite env b).status, (terminalWrite env b).error_message,
    ?_, terminalWrite_status env b⟩
  have hsplit : runBatch env st (pre ++ b :: post) =
      runBatch env (process_job env (runBatch env st pre) b) post := by
    simp only [runBatch, List.foldl_append, List.foldl_cons]
  rw [hsplit, writesFor_runBatch_frame env post _ b.id hpost,
    writesFor_process_job, if_pos rfl,
    writesFor_runBatch_frame env pre st b.id hpre]
  have hid : (⟨b.id, (terminalWrite env b).status,
      (terminalWrite env b).error_message⟩ : StatusWrite) =
      terminalWrite env b := by
    rw [← terminalWrite_job_id env b]
  rw [hid]

/-! ### Terminal status only after a successful save -/

theorem newWrites_eq (env : Env) (st : WorkerState) (job : PendingJob) :
    newWrites env st job =
      [⟨job.id, Status.running, none⟩, terminalWrite env job] := by
  unfold newWrites
  rw [process_job_statusLog, List.drop_left]

theorem update_db_transcripts (now : Nat) (st : WorkerState)
    (jid : String) (s : Status) (m : Option String) :
    (update_job_status now st jid s m).db.transcripts =
      st.db.transcripts := by
  unfold update_job_status
  by_cases h1 : s = Status.running
  · simp [h1]
  · by_cases h2 : s = Status.completed ∨ s = Status.failed
    · simp [h1, h2]
    · simp [h1, h2]

theorem process_job_transcripts_success (env : Env) (st : WorkerState)
    (job : PendingJob) (td : TranscriptData)
    (hfile : env.fileExists job.file_path = true)
    (hta : transcribe_audio env job.file_path = Except.ok td)
    (hsave : env.saveError job.audiobook_id = none) :
    (process_job env st job).db.transcripts =
      upsertTranscript (savedRow env job.audiobook_id td)
        st.db.transcripts := by
  unfold process_job
  simp [hfile, hta, save_transcript, hsave, update_db_transcripts]

theorem terminalWrite_failed_of_saveError (env : Env) (job : PendingJob)
    (hne : env.saveError job.audiobook_id ≠ none) :
    ∃ e, terminalWrite env job = ⟨job.id, Status.failed, some e⟩ := by
  unfold terminalWrite
  by_cases hf : env.fileExists job.file_path = false
  · exact ⟨_, by rw [if_pos hf]⟩
  · rw [if_neg hf]
    cases transcribe_audio env job.file_path with
    | error e => exact ⟨e, rfl⟩
    | ok td =>
        cases hse : env.saveError job.audiobook_id with
        | some e => exact ⟨e, rfl⟩
        | none => exact absurd hse hne

/-- Claim C3.  The terminal status `completed` is written for a job
only when `save_transcript` has returned successfully (and the
transcript row is visibly persisted); when `save_transcript` raises,
the terminal write is `failed` and the job is never marked
completed. -/
theorem completed_requires_successful_save (env : Env)
    (st : WorkerState) (job : PendingJob) :
    ((∃ m, (⟨job.id, Status.completed, m⟩ : StatusWrite) ∈
          newWrites env st job) →
        env.fileExists job.file_path = true ∧
        env.saveError job.audiobook_id = none ∧
        ∃ td, transcribe_audio env job.file_path = Except.ok td ∧
          (process_job env st job).db.transcripts =
            upsertTranscript (savedRow env job.audiobook_id td)
              st.db.transcripts) ∧
    (env.saveError job.audiobook_id ≠ none →
        (∃ e, (newWrites env st job).getLast? =
            some ⟨job.id, Status.failed, some e⟩) ∧
        ∀ m, (⟨job.id, Status.completed, m⟩ : StatusWrite) ∉
          newWrites env st job) := by
  constructor
  · rintro ⟨m, hm⟩
    rw [newWrites_eq] at hm
    rcases List.mem_cons.mp hm with hrun | hm
    · exact absurd (congrArg StatusWrite.status hrun) (by simp)
    rcases List.mem_cons.mp hm with htw | hnil
    · by_cases hf : env.fileExists job.file_path = false
      · rw [terminalWrite, if_pos hf] at htw
        exact absurd (congrArg StatusWrite.status htw) (by simp)
      · have hf' : env.fileExists job.file_path = true := by
          cases henv : env.fileExists job.file_path
          · exact absurd henv hf
          · rfl
        rw [terminalWrite, if_neg hf] at htw
        cases hta : transcribe_audio env job.file_path with
        | error e =>
            rw [hta] at htw
            exact absurd (congrArg StatusWrite.status htw) (by simp)
        | ok td =>
            rw [hta] at htw
            cases hse : env.saveError job.audiobook_id with
            | some e =>
                rw [hse] at htw
                exact absurd (congrArg StatusWrite.status htw) (by simp)
            | none =>
                exact ⟨hf', rfl, td, rfl,
                  process_job_transcripts_success env st job td hf' hta hse⟩
    · exact absurd hnil (List.not_mem_nil _)
  · intro hne
    obtain ⟨e, he⟩ := terminalWrite_failed_of_saveError env job hne
    constructor
    · exact ⟨e, by rw [newWrites_eq, he]; rfl⟩
    · intro m hm
      rw [newWrites_eq, he] at hm
      rcases List.mem_cons.mp hm with hrun | hm
      · exact absurd (congrArg StatusWrite.status hrun) (by simp)
      rcases List.mem_cons.mp hm with hfl | hnil
      · exact absurd (congrArg StatusWrite.status hfl) (by simp)
      · exact absurd hnil (List.not_mem_nil _)

/-! ### Upsert laws -/

theorem overwriteFields_audiobook_id (row r : TranscriptRow) :
    (overwriteFields row r).audiobook_id = r.audiobook_id := rfl

theorem save_transcript_ok (env : Env) (st : WorkerState) (aid : String)
    (td : TranscriptData) (h : env.saveError aid = none) :
    save_transcript env st aid td = Except.ok
      { st with db := { st.db with
          transcripts := upsertTranscript (savedRow env aid td) st.db.transcripts } } := by
  unfold save_transcript
  rw [h]

theorem save_transcript_err (env : Env) (st : WorkerState) (aid : String)
    (td : TranscriptData) (e : String) (h : env.saveError aid = some e) :
    save_transcript env st aid td = Except.error e := by
  unfold save_transcript
  rw [h]

theorem upsert_key_fields (row : TranscriptRow) (ts : List TranscriptRow) :
    ∀ r ∈ upsertTranscript row ts, r.audiobook_id = row.audiobook_id →
      r.content = row.content ∧ r.segments = row.segments ∧
      r.language = row.language ∧
      r.confidence_score = row.confidence_score ∧
      r.processing_time_seconds = row.processing_time_seconds := by
  intro r hr hid
  unfold upsertTranscript at hr
  split at hr
  next h =>
    obtain ⟨s, hs, rfl⟩ := List.mem_map.mp hr
    by_cases hsid : s.audiobook_id = row.audiobook_id
    · rw [if_pos hsid]
      exact ⟨rfl, rfl, rfl, rfl, rfl⟩
    · rw [if_neg hsid] at hid
      exact absurd hid hsid
  next h =>
    rcases List.mem_append.mp hr with hmem | hmem
    · have hno : ∀ s ∈ ts, ¬ s.audiobook_id = row.audiobook_id := by
        intro s hs hcon
        exact h (List.any_eq_true.mpr ⟨s, hs, decide_eq_true hcon⟩)
      exact absurd hid (hno r hmem)
    · rcases List.mem_singleton.mp hmem with rfl
      exact ⟨rfl, rfl, rfl, rfl, rfl⟩

theorem upsert_exists_key (row : TranscriptRow) (ts : List TranscriptRow) :
    ∃ r ∈ upsertTranscript row ts, r.audiobook_id = row.audiobook_id := by
  unfold upsertTranscript
  split
  next h =>
    obtain ⟨s, hs, hp⟩ := List.any_eq_true.mp h
    have hsid : s.audiobook_id = row.audiobook_id := of_decide_eq_true hp
    refine ⟨overwriteFields row s, ?_,
      by rw [overwriteFields_audiobook_id, hsid]⟩
    have hif : (if s.audiobook_id = row.audiobook_id
        then overwriteFields row s else s) = overwriteFields row s :=
      if_pos hsid
    exact hif ▸ List.mem_map_of_mem _ hs
  next h =>
    exact ⟨row, List.mem_append_right ts (List.mem_singleton.mpr rfl), rfl⟩

theorem upsert_filter_length (row : TranscriptRow) (ts : List TranscriptRow)
    (hu : (ts.filter
        (fun r => r.audiobook_id = row.audiobook_id)).length ≤ 1) :
    ((upsertTranscript row ts).filter
        (fun r => r.audiobook_id = row.audiobook_id)).length = 1 := by
  unfold upsertTranscript
  split
  next h =>
    obtain ⟨s, hs, hp⟩ := List.any_eq_true.mp h
    have hcong : List.filter
        (fun r => decide (r.audiobook_id = row.audiobook_id))
        (ts.map (fun r =>
          if r.audiobook_id = row.audiobook_id then overwriteFields row r
          else r)) =
        List.map (fun r =>
          if r.audiobook_id = row.audiobook_id then overwriteFields row r
          else r)
        (ts.filter (fun r => decide (r.audiobook_id = row.audiobook_id))) := by
      rw [List.filter_map]
      congr 1
      apply List.filter_congr
      intro x _
      by_cases hx : x.audiobook_id = row.audiobook_id
      · simp [Function.comp, hx, overwriteFields_audiobook_id]
      · simp [Function.comp, hx]
    rw [hcong, List.length_map]
    have hge : 1 ≤ (ts.filter
        (fun r => decide (r.audiobook_id = row.audiobook_id))).length :=
      List.length_pos_of_mem (List.mem_filter.mpr ⟨hs, hp⟩)
    exact le_antisymm hu hge
  next h =>
    have hempty : ts.filter
        (fun r => decide (r.audiobook_id = row.audiobook_id)) = [] := by
      rw [List.filter_eq_nil_iff]
      intro s hs hcon
      exact h (List.any_eq_true.mpr ⟨s, hs, hcon⟩)
    rw [List.filter_append, hempty, List.nil_append]
    simp

/-- Claim C2.  Calling `save_transcript` twice for the same audiobook
id — from any store holding at most one result row for that id, as the
unique constraint on `audiobook_id` guarantees — leaves exactly one
result row for that id, and that row carries the second call's
content, segments, language, confidence score and processing time
(idempotent replace law). -/
theorem save_transcript_idempotent_replace (env1 env2 : Env)
    (st st1 st2 : WorkerState) (aid : String)
    (td1 td2 : TranscriptData)
    (h1 : save_transcript env1 st aid td1 = Except.ok st1)
    (h2 : save_transcript env2 st1 aid td2 = Except.ok st2)
    (hu : (st.db.transcripts.filter
        (fun r => r.audiobook_id = aid)).length ≤ 1) :
    (st2.db.transcripts.filter
        (fun r => r.audiobook_id = aid)).length = 1 ∧
    ∀ r ∈ st2.db.transcripts, r.audiobook_id = aid →
      r.content = td2.content ∧
      r.segments = segmentsColumn td2.segments ∧
      r.language = td2.language ∧
      r.confidence_score = (95 : ℚ) / 100 ∧
      r.processing_time_seconds = td2.processing_time_seconds := by
  cases hs1 : env1.saveError aid with
  | some e =>
      rw [save_transcript_err env1 st aid td1 e hs1] at h1
      exact absurd h1 (by simp)
  | none =>
  cases hs2 : env2.saveError aid with
  | some e =>
      rw [save_transcript_err env2 st1 aid td2 e hs2] at h2
      exact absurd h2 (by simp)
  | none =>
  rw [save_transcript_ok env1 st aid td1 hs1] at h1
  rw [save_transcript_ok env2 st1 aid td2 hs2] at h2
  have e1 : st1.db.transcripts =
      upsertTranscript (savedRow env1 aid td1) st.db.transcripts := by
    rw [← Except.ok.inj h1]
  have e2 : st2.db.transcripts =
      upsertTranscript (savedRow env2 aid td2) st1.db.transcripts := by
    rw [← Except.ok.inj h2]
  constructor
  · rw [e2]
    have hlen1 : (st1.db.transcripts.filter
        (fun r => r.audiobook_id = aid)).length = 1 := by
      rw [e1]
      exact upsert_filter_length (savedRow env1 aid td1) st.db.transcripts hu
    exact upsert_filter_length (savedRow env2 aid td2) st1.db.transcripts
      (le_of_eq hlen1)
  · intro r hr hid
    rw [e2] at hr
    exact upsert_key_fields (savedRow env2 aid td2) st1.db.transcripts r hr hid

/-- Claim C10.  On the conflict path (a result row for the media id
already exists), `save_transcript` keeps every existing row's `id`,
`created_at` and `audiobook_id` unchanged (and leaves rows for other
media untouched entirely): only `content`, `segments`, `language`,
`confidence_score` and `processing_time_seconds` of the conflicting
row are overwritten with the new call's values. -/
theorem save_transcript_conflict_frame (env : Env) (st stB : WorkerState)
    (aid : String) (td : TranscriptData)
    (h : save_transcript env st aid td = Except.ok stB)
    (hconflict : ∃ r ∈ st.db.transcripts, r.audiobook_id = aid) :
    stB.db.transcripts.length = st.db.transcripts.length ∧
    ∀ i : Nat, ∀ hi : i < st.db.transcripts.length,
      ∃ hj : i < stB.db.transcripts.length,
        (stB.db.transcripts.get ⟨i, hj⟩).id =
          (st.db.transcripts.get ⟨i, hi⟩).id ∧
        (stB.db.transcripts.get ⟨i, hj⟩).created_at =
          (st.db.transcripts.get ⟨i, hi⟩).created_at ∧
        (stB.db.transcripts.get ⟨i, hj⟩).audiobook_id =
          (st.db.transcripts.get ⟨i, hi⟩).audiobook_id ∧
        ((st.db.transcripts.get ⟨i, hi⟩).audiobook_id ≠ aid →
          stB.db.transcripts.get ⟨i, hj⟩ =
            st.db.transcripts.get ⟨i, hi⟩) ∧
        ((st.db.transcripts.get ⟨i, hi⟩).audiobook_id = aid →
          (stB.db.transcripts.get ⟨i, hj⟩).content = td.content ∧
          (stB.db.transcripts.get ⟨i, hj⟩).segments =
            segmentsColumn td.segments ∧
          (stB.db.transcripts.get ⟨i, hj⟩).language = td.language ∧
          (stB.db.transcripts.get ⟨i, hj⟩).confidence_score =
            (95 : ℚ) / 100 ∧
          (stB.db.transcripts.get ⟨i, hj⟩).processing_time_seconds =
            td.processing_time_seconds) := by
  cases hs : env.saveError aid with
  | some e =>
      rw [save_transcript_err env st aid td e hs] at h
      exact absurd h (by simp)
  | none =>
  rw [save_transcript_ok env st aid td hs] at h
  have hts : stB.db.transcripts =
      upsertTranscript (savedRow env aid td) st.db.transcripts := by
    rw [← Except.ok.inj h]
  have hconf2 : (st.db.transcripts.any fun r =>
      decide (r.audiobook_id = (savedRow env aid td).audiobook_id)) = true := by
    obtain ⟨r, hr, hid⟩ := hconflict
    exact List.any_eq_true.mpr ⟨r, hr, decide_eq_true hid⟩
  have hup : upsertTranscript (savedRow env aid td) st.db.transcripts =
      st.db.transcripts.map (fun r =>
        if r.audiobook_id = aid then overwriteFields (savedRow env aid td) r
        else r) := by
    unfold upsertTranscript
    rw [if_pos hconf2]
    rfl
  rw [hts, hup]
  constructor
  · exact List.length_map _ _
  · intro i hi
    refine ⟨by rw [List.length_map]; exact hi, ?_⟩
    rw [List.get_map]
    by_cases hx : (st.db.transcripts.get ⟨i, hi⟩).audiobook_id = aid
    · rw [if_pos hx]
      refine ⟨rfl, rfl, ?_, fun hcon => absurd hx hcon, fun _ =>
        ⟨rfl, rfl, rfl, rfl, rfl⟩⟩
      rw [overwriteFields_audiobook_id]
    · rw [if_neg hx]
      exact ⟨rfl, rfl, rfl, fun _ => rfl, fun hcon => absurd hcon hx⟩

/-! ### The error-message invariant -/

theorem update_terminal_jobs (now : Nat) (st : WorkerState) (jid : String)
    (s : Status) (m : Option String)
    (hs : s = Status.completed ∨ s = Status.failed) :
    (update_job_status now st jid s m).db.jobs =
      st.db.jobs.map (fun j =>
        if j.id = jid then
          { j with status := s, completed_at := some now,
                   error_message := m }
        else j) := by
  unfold update_job_status
  rcases hs with rfl | rfl
  · simp
  · simp

theorem terminal_update_error_iff (now : Nat) (st : WorkerState)
    (jid : String) (s : Status) (m : Option String)
    (hs : s = Status.completed ∧ m = none ∨
      s = Status.failed ∧ m ≠ none) :
    ∀ jr ∈ (update_job_status now st jid s m).db.jobs, jr.id = jid →
      (jr.status = Status.failed ↔ jr.error_message ≠ none) := by
  intro jr hjr hid
  have hterm : s = Status.completed ∨ s = Status.failed := by
    rcases hs with ⟨h, _⟩ | ⟨h, _⟩
    · exact Or.inl h
    · exact Or.inr h
  rw [update_terminal_jobs now st jid s m hterm] at hjr
  obtain ⟨j, hj, rfl⟩ := List.mem_map.mp hjr
  by_cases hjid : j.id = jid
  · rw [if_pos hjid]
    rcases hs with ⟨rfl, rfl⟩ | ⟨rfl, hm⟩
    · simp
    · simp [hm]
  · rw [if_neg hjid] at hid
    exact absurd hid hjid

theorem terminalWrite_message (env : Env) (job : PendingJob) :
    (terminalWrite env job).status = Status.completed ∧
        (terminalWrite env job).error_message = none ∨
      (terminalWrite env job).status = Status.failed ∧
        (terminalWrite env job).error_message ≠ none := by
  unfold terminalWrite
  by_cases hf : env.fileExists job.file_path = false
  · rw [if_pos hf]
    exact Or.inr ⟨rfl, by simp⟩
  · rw [if_neg hf]
    cases transcribe_audio env job.file_path with
    | error e => exact Or.inr ⟨rfl, by simp⟩
    | ok td =>
        cases env.saveError job.audiobook_id with
        | none => exact Or.inl ⟨rfl, rfl⟩
        | some e => exact Or.inr ⟨rfl, by simp⟩

theorem process_job_eq_terminal_update (env : Env) (st : WorkerState)
    (job : PendingJob) :
    ∃ stMid : WorkerState, process_job env st job =
      update_job_status env.now stMid job.id
        (terminalWrite env job).status
        (terminalWrite env job).error_message := by
  unfold process_job terminalWrite
  by_cases hf : env.fileExists job.file_path = false
  · rw [if_pos hf, if_pos hf]
    exact ⟨_, rfl⟩
  · rw [if_neg hf, if_neg hf]
    cases hta : transcribe_audio env job.file_path with
    | error e => exact ⟨_, rfl⟩
    | ok td =>
        cases hse : env.saveError job.audiobook_id with
        | some e =>
            simp only [save_transcript, hse]
            exact ⟨_, rfl⟩
        | none =>
            simp only [save_transcript, hse]
            exact ⟨_, rfl⟩

/-- Claim C6.  After `process_job` has written the job's terminal
status, the job row's `error_message` is non-null exactly when its
status is `failed`: the `failed` update records the exception's
message, and the `completed` update writes NULL into
`error_message`. -/
theorem error_message_iff_failed (env : Env) (st : WorkerState)
    (job : PendingJob) :
    ∀ jr ∈ (process_job env st job).db.jobs, jr.id = job.id →
      (jr.status = Status.failed ↔ jr.error_message ≠ none) := by
  obtain ⟨stMid, heq⟩ := process_job_eq_terminal_update env st job
  rw [heq]
  exact terminal_update_error_iff env.now stMid job.id _ _
    (terminalWrite_message env job)

/-! ### The fetch query -/

theorem mem_insertByCreated (x j : PendingJob) (l : List PendingJob) :
    x ∈ insertByCreated j l ↔ x = j ∨ x ∈ l := by
  induction l with
  | nil => simp [insertByCreated]
  | cons k ks ih =>
      rw [insertByCreated]
      by_cases h : j.created_at ≤ k.created_at
      · rw [if_pos h]
        simp [List.mem_cons]
      · rw [if_neg h]
        simp only [List.mem_cons, ih]
        tauto

theorem pairwise_insertByCreated (j : PendingJob) (l : List PendingJob)
    (h : l.Pairwise (fun a b => a.created_at ≤ b.created_at)) :
    (insertByCreated j l).Pairwise
      (fun a b => a.created_at ≤ b.created_at) := by
  induction l with
  | nil => simp [insertByCreated]
  | cons k ks ih =>
      rw [insertByCreated]
      rcases List.pairwise_cons.mp h with ⟨hk, hks⟩
      by_cases hle : j.created_at ≤ k.created_at
      · rw [if_pos hle]
        refine List.Pairwise.cons ?_ h
        intro b hb
        rcases List.mem_cons.mp hb with rfl | hb
        · exact hle
        · exact le_trans hle (hk b hb)
      · rw [if_neg hle]
        refine List.Pairwise.cons ?_ (ih hks)
        intro b hb
        rcases (mem_insertByCreated b j ks).mp hb with rfl | hb
        · exact le_of_not_le hle
        · exact hk b hb

theorem pairwise_sortByCreated (l : List PendingJob) :
    (sortByCreated l).Pairwise
      (fun a b => a.created_at ≤ b.created_at) := by
  induction l with
  | nil => simp [sortByCreated]
  | cons j js ih => exact pairwise_insertByCreated j (sortByCreated js) ih

theorem mem_pendingRows (st : WorkerState) (x : PendingJob)
    (hx : x ∈ pendingRows st) :
    x.status = Status.pending ∧ x.job_type = "transcribe" := by
  unfold pendingRows at hx
  obtain ⟨j, hj, hfx⟩ := List.mem_filterMap.mp hx
  by_cases hc : j.job_type = "transcribe" ∧ j.status = Status.pending
  · rw [if_pos hc] at hfx
    cases hfind : st.db.audiobooks.find? (fun ab => ab.id = j.audiobook_id) with
    | some ab =>
        rw [hfind] at hfx
        obtain rfl := Option.some.inj hfx
        exact ⟨hc.2, hc.1⟩
    | none =>
        rw [hfind] at hfx
        exact absurd hfx (by simp)
  · rw [if_neg hc] at hfx
    exact absurd hfx (by simp)

theorem pendingRows_nil (st : WorkerState)
    (h : ∀ jr ∈ st.db.jobs,
      ¬ (jr.job_type = "transcribe" ∧ jr.status = Status.pending)) :
    pendingRows st = [] := by
  unfold pendingRows
  rw [List.filterMap_eq_nil]
  intro j hj
  rw [if_neg (h j hj)]

theorem mem_sortByCreated (x : PendingJob) (l : List PendingJob) :
    x ∈ sortByCreated l ↔ x ∈ l := by
  induction l with
  | nil => simp [sortByCreated]
  | cons j js ih =>
      rw [sortByCreated, mem_insertByCreated]
      simp [ih]

/-- Claim C5.  Every row `get_pending_jobs` returns has status
`pending` and job type `transcribe`; the returned sequence is ordered
by `created_at` ascending and holds at most 5 rows (the fixed LIMIT);
the fetch performs no write (the state component is returned
unchanged); and when no pending transcribe job exists the result is
the empty sequence. -/
theorem fetchPending_spec (env : Env) (st : WorkerState) :
    (∀ j ∈ (get_pending_jobs env st).1,
        j.status = Status.pending ∧ j.job_type = "transcribe") ∧
    (get_pending_jobs env st).1.Pairwise
      (fun a b => a.created_at ≤ b.created_at) ∧
    (get_pending_jobs env st).1.length ≤ 5 ∧
    (get_pending_jobs env st).2 = st ∧
    ((∀ jr ∈ st.db.jobs,
        ¬ (jr.job_type = "transcribe" ∧ jr.status = Status.pending)) →
      (get_pending_jobs env st).1 = []) := by
  unfold get_pending_jobs
  cases env.fetchError with
  | some e =>
      exact ⟨by simp, by simp, by simp, rfl, fun _ => rfl⟩
  | none =>
      refine ⟨?_, ?_, ?_, rfl, ?_⟩
      · intro j hj
        exact mem_pendingRows st j
          ((mem_sortByCreated j (pendingRows st)).mp
            (List.mem_of_mem_take hj))
      · exact List.Pairwise.sublist (List.take_sublist 5 _)
          (pairwise_sortByCreated (pendingRows st))
      · exact List.length_take_le 5 _
      · intro h
        show (sortByCreated (pendingRows st)).take 5 = []
        rw [pendingRows_nil st h]
        rfl

/-! ### The idle loop -/

theorem get_pending_snd (env : Env) (st : WorkerState) :
    (get_pending_jobs env st).2 = st := by
  unfold get_pending_jobs
  cases env.fetchError with
  | some e => rfl
  | none => rfl

/-- Claim C8.  When the fetched batch is empty, the iteration invokes
the pipeline on no job, leaves the state untouched, and sleeps the
10 s idle interval before the next poll; and in every iteration,
whatever the outcome, the last sleep performed is the fixed 5 s
inter-iteration delay. -/
theorem empty_batch_idles (env : Env) (st : WorkerState) :
    ((get_pending_jobs env st).1 = [] →
        runIteration env st =
          (st, [], [SleepEvent.idle 10, SleepEvent.inter 5])) ∧
    ((runIteration env st).2.2.getLast? = some (SleepEvent.inter 5)) := by
  constructor
  · intro h
    simp [runIteration, h, get_pending_snd]
  · by_cases h : (get_pending_jobs env st).1.isEmpty
    · simp [runIteration, h]
    · simp [runIteration, h]

/-- Claim C9.  A store failure during the fetch is swallowed by
`get_pending_jobs` (the exception never reaches the loop): the fetch
returns the empty list with the state unchanged, so the iteration is
indistinguishable from one that found no pending work and performs the
10 s idle sleep, not the 30 s error backoff. -/
theorem fetch_failure_idles (env : Env) (st : WorkerState) (e : String)
    (h : env.fetchError = some e) :
    get_pending_jobs env st = ([], st) ∧
    runIteration env st =
      (st, [], [SleepEvent.idle 10, SleepEvent.inter 5]) := by
  have hfetch : get_pending_jobs env st = ([], st) := by
    unfold get_pending_jobs
    rw [h]
  refine ⟨hfetch, ?_⟩
  simp [runIteration, hfetch]

/-! ### Normalization of the engine output -/

/-- Claim C7, amended.  For every successful pipeline run, the stored
transcript row carries the engine's full text unmodified, the engine's
detected language (`"unknown"` when the engine omits it), the fixed
placeholder confidence score 0.95 independent of the input, the
measured processing time, and the engine's segment list passed through
unmodified in the same order when that list is nonempty; an empty (or
absent) engine segment list is stored as a NULL segments column rather
than as the empty list. -/
theorem stored_result_normalization (env : Env) (st : WorkerState)
    (job : PendingJob) (r : WhisperOutput)
    (hfile : env.fileExists job.file_path = true)
    (heng : env.engine job.file_path = Except.ok r)
    (hsave : env.saveError job.audiobook_id = none) :
    (∃ tr ∈ (process_job env st job).db.transcripts,
        tr.audiobook_id = job.audiobook_id) ∧
    ∀ tr ∈ (process_job env st job).db.transcripts,
      tr.audiobook_id = job.audiobook_id →
        tr.content = r.text ∧
        tr.language = r.language.getD "unknown" ∧
        tr.confidence_score = (95 : ℚ) / 100 ∧
        tr.processing_time_seconds = env.procTime job.file_path ∧
        (r.segments.getD [] ≠ [] →
          tr.segments = some (r.segments.getD [])) ∧
        (r.segments.getD [] = [] → tr.segments = none) := by
  have hta : transcribe_audio env job.file_path = Except.ok
      { content := r.text, segments := r.segments.getD [],
        language := r.language.getD "unknown",
        processing_time_seconds := env.procTime job.file_path } := by
    unfold transcribe_audio
    rw [heng]
  have htr := process_job_transcripts_success env st job
    { content := r.text, segments := r.segments.getD [],
      language := r.language.getD "unknown",
      processing_time_seconds := env.procTime job.file_path }
    hfile hta hsave
  rw [htr]
  constructor
  · exact upsert_exists_key _ st.db.transcripts
  · intro tr htrmem hid
    have hfields := upsert_key_fields _ st.db.transcripts tr htrmem hid
    refine ⟨hfields.1, hfields.2.2.1, hfields.2.2.2.1,
      hfields.2.2.2.2, ?_, ?_⟩
    · intro hne
      rw [hfields.2.1]
      show segmentsColumn (r.segments.getD []) = _
      unfold segmentsColumn
      rw [if_neg hne]
    · intro hnil
      rw [hfields.2.1]
      show segmentsColumn (r.segments.getD []) = none
      unfold segmentsColumn
      rw [if_pos hnil]

/-! ### Concrete witnesses and the empty-segments counterexample -/

/-- Concrete instance of the idempotent replace law: storing "draft"
then "final" for audiobook `ab-b` leaves one row holding the second
call's values. -/
theorem save_transcript_idempotent_replace_witness :
    (st2W.db.transcripts.filter
        (fun r => r.audiobook_id = "ab-b")).length = 1 ∧
    ∀ r ∈ st2W.db.transcripts, r.audiobook_id = "ab-b" →
      r.content = td2W.content ∧
      r.segments = segmentsColumn td2W.segments ∧
      r.language = td2W.language ∧
      r.confidence_score = (95 : ℚ) / 100 ∧
      r.processing_time_seconds = td2W.processing_time_seconds :=
  save_transcript_idempotent_replace envW envW st0 st1W st2W "ab-b"
    td1W td2W rfl rfl (by decide)

/-- Concrete instance of batch isolation: job A's audio file is
missing, yet job B, later in the same batch, still receives its
`running` and terminal writes. -/
theorem batch_failure_isolation_witness :
    ∃ t m,
      writesFor (runBatch envW st0 ([jobA] ++ jobB :: [])) jobB.id =
        writesFor st0 jobB.id ++
          [⟨jobB.id, Status.running, none⟩, ⟨jobB.id, t, m⟩] ∧
      (t = Status.completed ∨ t = Status.failed) :=
  batch_failure_isolation envW st0 [jobA] [] jobB (by decide)

/-- Concrete instance of the error-message invariant on the completed
job row produced by processing job B. -/
theorem error_message_iff_failed_witness :
    jrB.status = Status.failed ↔ jrB.error_message ≠ none :=
  error_message_iff_failed envW st0 jobB jrB (by decide) (by decide)

/-- Concrete instance of result normalization for the successful run
of job B. -/
theorem stored_result_normalization_witness :
    (∃ tr ∈ (process_job envW st0 jobB).db.transcripts,
        tr.audiobook_id = jobB.audiobook_id) ∧
    ∀ tr ∈ (process_job envW st0 jobB).db.transcripts,
      tr.audiobook_id = jobB.audiobook_id →
        tr.content = whisperB.text ∧
        tr.language = whisperB.language.getD "unknown" ∧
        tr.confidence_score = (95 : ℚ) / 100 ∧
        tr.processing_time_seconds = envW.procTime jobB.file_path ∧
        (whisperB.segments.getD [] ≠ [] →
          tr.segments = some (whisperB.segments.getD [])) ∧
        (whisperB.segments.getD [] = [] → tr.segments = none) :=
  stored_result_normalization envW st0 jobB whisperB (by decide) rfl rfl

/-- Concrete instance of the fetch-failure behaviour: with the store
unreachable the fetch returns the empty batch and the iteration idles. -/
theorem fetch_failure_idles_witness :
    get_pending_jobs envFetchFail st0 = ([], st0) ∧
    runIteration envFetchFail st0 =
      (st0, [], [SleepEvent.idle 10, SleepEvent.inter 5]) :=
  fetch_failure_idles envFetchFail st0 "connection refused" rfl

/-- Concrete instance of the conflict-path frame property: replacing
the existing `ab-b` row keeps its `id` and `created_at`. -/
theorem save_transcript_conflict_frame_witness :
    st2W.db.transcripts.length = st1W.db.transcripts.length ∧
    ∀ i : Nat, ∀ hi : i < st1W.db.transcripts.length,
      ∃ hj : i < st2W.db.transcripts.length,
        (st2W.db.transcripts.get ⟨i, hj⟩).id =
          (st1W.db.transcripts.get ⟨i, hi⟩).id ∧
        (st2W.db.transcripts.get ⟨i, hj⟩).created_at =
          (st1W.db.transcripts.get ⟨i, hi⟩).created_at ∧
        (st2W.db.transcripts.get ⟨i, hj⟩).audiobook_id =
          (st1W.db.transcripts.get ⟨i, hi⟩).audiobook_id ∧
        ((st1W.db.transcripts.get ⟨i, hi⟩).audiobook_id ≠ "ab-b" →
          st2W.db.transcripts.get ⟨i, hj⟩ =
            st1W.db.transcripts.get ⟨i, hi⟩) ∧
        ((st1W.db.transcripts.get ⟨i, hi⟩).audiobook_id = "ab-b" →
          (st2W.db.transcripts.get ⟨i, hj⟩).content = td2W.content ∧
          (st2W.db.transcripts.get ⟨i, hj⟩).segments =
            segmentsColumn td2W.segments ∧
          (st2W.db.transcripts.get ⟨i, hj⟩).language = td2W.language ∧
          (st2W.db.transcripts.get ⟨i, hj⟩).confidence_score =
            (95 : ℚ) / 100 ∧
          (st2W.db.transcripts.get ⟨i, hj⟩).processing_time_seconds =
            td2W.processing_time_seconds) :=
  save_transcript_conflict_frame envW st1W st2W "ab-b" td2W rfl (by decide)

/-- Claim C7 as stated is false on the code: a successful pipeline run
whose engine output carries the empty segment list ends `completed`,
yet the stored segments column is NULL (`none`), not the engine's
empty list — `json.dumps(...) if segments else None` stores NULL for a
falsy (empty) list, so the segment list is not passed through
unmodified in this case. -/
theorem empty_segments_stored_as_null :
    envEmptySegs.engine jobB.file_path =
      Except.ok { text := "hi", segments := some [],
                  language := some "en" } ∧
    (process_job envEmptySegs st0 jobB).statusLog.getLast? =
      some ⟨jobB.id, Status.completed, none⟩ ∧
    (process_job envEmptySegs st0 jobB).db.transcripts.map
        TranscriptRow.segments = [none] ∧
    ((none : Option (List Segment)) ≠ some []) :=
  ⟨rfl, by decide, by decide, by simp⟩

end Transcriber
